import Mathlib

/-!
Verification development for the `gas-agent` gas-price prediction service.

The Lean definitions below are shallow embeddings of the Rust source:
machine integers (`u8`..`u128`, `U240`, `U256`) are modelled as `Nat`, with
an explicit `% 2^w` at the points where the Rust code relies on wrapping,
and `f64` / `rust_decimal::Decimal` monetary quantities are modelled as
exact rationals `ℚ` (the model arithmetic at the inputs used in the
theorems below is exact in `f64` as well).  Fallible Rust functions
(`Result`/`anyhow::Result`) are embedded as `Except`.
-/

namespace GasAgent

/-- Rounding used by `utils.rs::round_to_9_places`: `(v * 1e9).round() / 1e9`.
Rust `f64::round` rounds half away from zero, which on the non-negative
values produced by the models agrees with Mathlib `round` (half up). -/
def round_to_9_places (v : ℚ) : ℚ := (round (v * 1000000000) : ℚ) / 1000000000

/-- Banker's rounding of a rational to an integer, as performed by
`rust_decimal::Decimal::round_dp` (strategy `MidpointNearestEven`). -/
def roundHalfEven (x : ℚ) : ℤ :=
  let f := ⌊x⌋
  let r := x - f
  if r < 1/2 then f
  else if 1/2 < r then f + 1
  else if f % 2 = 0 then f else f + 1

/-- Rounding to 9 decimal places with banker's rounding,
`Decimal::round_dp(9)` in `blocks.rs::wei_to_gwei`. -/
def round_dp9 (x : ℚ) : ℚ := (roundHalfEven (x * 1000000000) : ℚ) / 1000000000

/-- Embedding of `f64::max` on (non-NaN) values: the greater argument. -/
def fmax (a b : ℚ) : ℚ := if a ≤ b then b else a

/-- Embedding of `f64::min` on (non-NaN) values: the smaller argument. -/
def fmin (a b : ℚ) : ℚ := if a ≤ b then a else b

/-- Fee distribution bucket, `distribution.rs::Bucket`. -/
structure Bucket where
  gwei : ℚ
  count : ℕ
deriving DecidableEq, Repr

/-- Block distribution, `distribution.rs`: `pub type BlockDistribution = Vec<Bucket>`. -/
abbrev BlockDistribution := List Bucket

/-- Settlement class, `types.rs::Settlement`. -/
inductive Settlement where
  | immediate
  | fast
  | medium
  | slow
deriving DecidableEq, Repr

/-- Model error taxonomy, `models/errors.rs::ModelError`.  The individual
models in this revision produce `anyhow` errors; they are classified here by
the taxonomy variant the message corresponds to (`InsufficientData` for the
"requires …" messages, matched by `agent.rs::create_prediction`). -/
inductive ModelError where
  | missingData (message : String)
  | insufficientData (message : String)
  | invalidData (message : String)
  | computationError (message : String)
deriving DecidableEq, Repr

/-- Block header, `rpc.rs::BlockHeader`.  The `timestamp` (a UTC datetime in
the source) is modelled as unix seconds; it plays no role in the fee
arithmetic claims. -/
structure BlockHeader where
  number : ℕ
  timestamp : ℕ
  gas_limit : ℕ
  gas_used : ℕ
  base_fee_per_gas : Option ℕ
deriving DecidableEq, Repr

/-- Conversion from wei to gwei, `blocks.rs::wei_to_gwei`.

`Decimal::from_u128(wei).unwrap_or_default()` yields the exact decimal for
`wei < 2^96` (the `rust_decimal` mantissa is 96 bits) and `Decimal::ZERO`
otherwise.  The division by `10^9` is exact here (the quotient is
representable with scale 9), `round_dp(9)` applies banker's rounding, and
the final `to_f64` narrowing succeeds for every `Decimal`, so the
`ok_or(anyhow!(..))` error branch is unreachable; the narrowing itself is
outside this exact-rational model. -/
def wei_to_gwei (wei : ℕ) : Except String ℚ :=
  let wei_decimal : ℚ := if wei < 2 ^ 96 then (wei : ℚ) else 0
  Except.ok (round_dp9 (wei_decimal / 1000000000))

/-- Effective fee calculation, `blocks.rs::calc_fee_gwei`.

Note the source extracts `base_fee_per_gas` with `ok_or(..)?` before even
looking at `gas_price`, and the EIP-1559 branch computes
`max_fee_per_gas - base_fee_per_gas as u128` with plain `u128` subtraction,
which wraps modulo `2^128` (release profile) rather than reporting an
error when `max_fee_per_gas < base_fee_per_gas`. -/
def calc_fee_gwei (gas_price max_fee_per_gas max_priority_fee_per_gas : Option ℕ)
    (base_fee_per_gas : Option ℕ) : Except String ℚ :=
  match base_fee_per_gas with
  | none => Except.error ("No base fee per gas value")
  | some base_fee =>
    match gas_price with
    | some gp => wei_to_gwei gp
    | none =>
      match max_fee_per_gas with
      | none => Except.error ("Missing max_fee_per_gas for effective calc")
      | some max_fee =>
        match max_priority_fee_per_gas with
        | none => Except.error ("Missing max_priority_fee_per_gas for effective calc")
        | some max_priority =>
          let a := (max_fee + 2 ^ 128 - base_fee) % 2 ^ 128
          let wei := min a max_priority
          wei_to_gwei wei

/-- Constant `blocks.rs::ELASTICITY_MULTIPLIER`. -/
def ELASTICITY_MULTIPLIER : ℕ := 2

/-- Constant `blocks.rs::BASE_FEE_CHANGE_DENOMINATOR`. -/
def BASE_FEE_CHANGE_DENOMINATOR : ℕ := 8

/-- Next-block base fee, `blocks.rs::calc_base_fee`.  The `u64`
multiplications and the addition wrap modulo `2^64` (release profile);
`saturating_sub` is `Nat` truncated subtraction.  Rust integer division
panics when the divisor is zero, so the `x / parent_gas_target` in the
increase branch panics when `parent_gas_target = 0` (i.e. `gas_limit ≤ 1`
with `gas_used > 0`); that panic is modelled as `Except.error`.  In the
decrease branch `gas_used < parent_gas_target` forces the divisor to be
positive, so that division cannot panic. -/
def calc_base_fee (latest_block : BlockHeader) : Except String (Option ℕ) :=
  match latest_block.base_fee_per_gas with
  | none => Except.ok none
  | some parent_base_fee =>
    let parent_gas_target := latest_block.gas_limit / ELASTICITY_MULTIPLIER
    if latest_block.gas_used = parent_gas_target then
      Except.ok (some parent_base_fee)
    else if parent_gas_target < latest_block.gas_used then
      let gas_used_delta := latest_block.gas_used - parent_gas_target
      let x := parent_base_fee * gas_used_delta % 2 ^ 64
      if parent_gas_target = 0 then Except.error ("attempt to divide by zero")
      else
        let y := x / parent_gas_target
        let base_fee_delta := max (y / BASE_FEE_CHANGE_DENOMINATOR) 1
        Except.ok (some ((parent_base_fee + base_fee_delta) % 2 ^ 64))
    else
      let gas_used_delta := parent_gas_target - latest_block.gas_used
      let x := parent_base_fee * gas_used_delta % 2 ^ 64
      let y := x / parent_gas_target
      let base_fee_delta := y / BASE_FEE_CHANGE_DENOMINATOR
      Except.ok (some (max (parent_base_fee - base_fee_delta) 0))

/-- Constant `agent.rs::MAX_NUM_BLOCK_DISTRIBUTIONS`. -/
def MAX_NUM_BLOCK_DISTRIBUTIONS : ℕ := 50

/-- Distribution-store update performed by `agent.rs::GasAgent::handle_new_block`
(lines 192-203): push the new distribution, then if the length exceeds the
maximum, `drain(0..start_idx)` with `start_idx = len - 50`, i.e. drop from
the head until exactly 50 remain. -/
def ingest_block (distributions : List BlockDistribution)
    (new_distribution : BlockDistribution) : List BlockDistribution :=
  let distributions := distributions ++ [new_distribution]
  let distributions_len := distributions.length
  if MAX_NUM_BLOCK_DISTRIBUTIONS < distributions_len then
    distributions.drop (distributions_len - MAX_NUM_BLOCK_DISTRIBUTIONS)
  else
    distributions

/-- Repeated ingestion of a sequence of block distributions, in arrival
order, starting from a given store state. -/
def ingest_blocks (store : List BlockDistribution) (ds : List BlockDistribution) :
    List BlockDistribution :=
  ds.foldl ingest_block store

/-- Constant `models/pending_floor.rs::ONE_WEI_IN_GWEI`. -/
def ONE_WEI_IN_GWEI : ℚ := 1 / 1000000000

/-- Pending-floor model, `models/pending_floor.rs::get_prediction_pending_floor`
(the function body at lines 22-49: it returns `Settlement::Immediate`; the
stale tests in that file still expect `Fast` from an older revision).
The `anyhow` error messages are classified as `InsufficientData` per the
taxonomy in `models/errors.rs` matched by `agent.rs::create_prediction`. -/
def get_prediction_pending_floor (pending_block_distribution : Option BlockDistribution) :
    Except ModelError (ℚ × Settlement) :=
  match pending_block_distribution with
  | none =>
    Except.error (ModelError.insufficientData
      ("PendingFloor model requires pending block distribution data"))
  | some pending_distribution =>
    if pending_distribution.isEmpty then
      Except.error (ModelError.insufficientData
        ("PendingFloor model requires non-empty pending block distribution"))
    else
      let min_price := ((pending_distribution.head?).map Bucket.gwei).getD 0
      let prediction := min_price + ONE_WEI_IN_GWEI
      Except.ok (round_to_9_places prediction, Settlement.immediate)

/-- Dispatch of the pending-floor model by `models/mod.rs::apply_model`
(lines 44-46).  `apply_model` returns `(price, settlement, from_block)`;
in the revision of `pending_floor.rs` present in the tree the model itself
returns only `(price, settlement)`, and the `from_block` component follows
the uniform `latest_block + 1` convention of the other models (e.g.
`percentile.rs` line 62), pinned by the in-repo test
`models/mod.rs::test_apply_model_pending_floor` which asserts
`from_block == 101` for `latest_block = 100`. -/
def apply_model_pending_floor (pending_block_distribution : Option BlockDistribution)
    (latest_block : ℕ) : Except ModelError (ℚ × Settlement × ℕ) :=
  match get_prediction_pending_floor pending_block_distribution with
  | Except.error e => Except.error e
  | Except.ok (price, settlement) => Except.ok (price, settlement, latest_block + 1)

/-- Stable insertion of a bucket into a list sorted ascending by `gwei`. -/
def insertByGwei (b : Bucket) : List Bucket → List Bucket
  | [] => [b]
  | c :: rest => if b.gwei ≤ c.gwei then b :: c :: rest else c :: insertByGwei b rest

/-- Sorting of a bucket list ascending by `gwei`; embeds the
`sort_by(partial_cmp)` calls of `percentile.rs` and `time_series.rs`
(on rationals the comparison is total, and the scan below only depends on
the sorted multiset, not on the particular stable order of equal keys). -/
def sortByGwei : List Bucket → List Bucket
  | [] => []
  | b :: rest => insertByGwei b (sortByGwei rest)

/-- Concatenation of the bucket lists of several blocks, in order; embeds
the collection loop of `percentile.rs` lines 30-35. -/
def flat_buckets : List BlockDistribution → List Bucket
  | [] => []
  | d :: rest => d ++ flat_buckets rest

/-- Total transaction count of a bucket list. -/
def total_count (l : List Bucket) : ℕ := (l.map Bucket.count).sum

/-- Cumulative scan over a (sorted) bucket list: returns the `gwei` of the
first bucket at which the running count reaches `target`, defaulting to 0
when the scan falls through.  This is the loop of `percentile.rs` lines
51-60 and, with `target = total/2`, the identical median loop of
`time_series.rs` lines 40-49. -/
def cumulative_scan_price (target : ℕ) : List Bucket → ℕ → ℚ
  | [], _ => 0
  | b :: rest, cumulative =>
    if target ≤ cumulative + b.count then b.gwei
    else cumulative_scan_price target rest (cumulative + b.count)

/-- Percentile (75th) model, `models/percentile.rs::get_prediction_percentile`.
`(total_txs as f64 * 0.75) as u32` is exactly `⌊3·total/4⌋` for every `u32`
total (the product is exact in `f64` below `2^34`). -/
def get_prediction_percentile (block_distributions : List BlockDistribution)
    (latest_block : ℕ) : Except ModelError (ℚ × Settlement × ℕ) :=
  if block_distributions.isEmpty then
    Except.error (ModelError.insufficientData
      ("Percentile model requires at least one block distribution"))
  else
    let num_blocks := min 5 block_distributions.length
    let blocks_to_consider :=
      block_distributions.drop (block_distributions.length - num_blocks)
    let all_gas_prices := sortByGwei (flat_buckets blocks_to_consider)
    let total_txs := total_count all_gas_prices
    if total_txs = 0 then
      Except.error (ModelError.insufficientData
        ("Percentile model requires blocks with transactions"))
    else
      let target_count := 3 * total_txs / 4
      let percentile_price := cumulative_scan_price target_count all_gas_prices 0
      Except.ok (round_to_9_places percentile_price, Settlement.fast, latest_block + 1)

/-- Core arithmetic of the simple weighted moving average,
`models/moving_average.rs::get_prediction_swma` lines 22-61: over the last
`min(10, len)` blocks, count-weighted mean per non-empty block, combined
with linear weights `i+1`.  `time_series.rs` calls a single-argument `f64`
revision of this function as its fallback; that revision is not in the
tree, so the no-transaction branch (where the two-argument revision errors)
is modelled as 0 here — no theorem below depends on that branch. -/
def swma_price (block_distributions : List BlockDistribution) : ℚ :=
  let num_blocks := min 10 block_distributions.length
  let blocks_to_consider :=
    block_distributions.drop (block_distributions.length - num_blocks)
  let step := fun (acc : ℚ × ℚ) (p : ℕ × BlockDistribution) =>
    let weight : ℚ := (p.1 : ℚ) + 1
    let total_txs : ℚ := (p.2.map fun b => (b.count : ℚ)).sum
    if 0 < total_txs then
      let block_avg_gas_price := ((p.2.map fun b => b.gwei * (b.count : ℚ)).sum) / total_txs
      (acc.1 + block_avg_gas_price * weight, acc.2 + weight)
    else acc
  let sums := blocks_to_consider.enum.foldl step (0, 0)
  if 0 < sums.2 then sums.1 / sums.2 else 0

/-- Weighted median of one block, `models/time_series.rs` lines 29-51:
sort the buckets by `gwei`, then take the first price whose cumulative
count reaches `total/2` (integer division). -/
def weighted_median (block : BlockDistribution) : ℚ :=
  let all_txs := sortByGwei block
  let total_txs := total_count all_txs
  let half_txs := total_txs / 2
  cumulative_scan_price half_txs all_txs 0

/-- Considered window of the time-series model, `models/time_series.rs`
lines 14-20: the last `min(20, len)` distributions. -/
def ts_blocks (block_distributions : List BlockDistribution) : List BlockDistribution :=
  block_distributions.drop
    (block_distributions.length - min 20 block_distributions.length)

/-- Median collection of `models/time_series.rs` lines 23-52: the weighted
median of each non-empty considered block, in order (empty blocks are
`continue`d over). -/
def ts_medians (block_distributions : List BlockDistribution) : List ℚ :=
  ((ts_blocks block_distributions).filter (fun b => !b.isEmpty)).map weighted_median

/-- Regression and prediction of `models/time_series.rs` lines 54-79:
ordinary least squares over the median sequence indexed from 0, prediction
at `x = n`, floored at 1.0 by `.max(1.0)`. -/
def ts_pred (block_distributions : List BlockDistribution) : ℚ :=
  let median_prices := ts_medians block_distributions
  let n : ℚ := (median_prices.length : ℚ)
  let x_mean := (n - 1) / 2
  let y_mean := median_prices.sum / n
  let sums := median_prices.enum.foldl
    (fun (acc : ℚ × ℚ) (p : ℕ × ℚ) =>
      let x_diff := (p.1 : ℚ) - x_mean
      let y_diff := p.2 - y_mean
      (acc.1 + x_diff * y_diff, acc.2 + x_diff * x_diff)) (0, 0)
  let slope := if sums.2 ≠ 0 then sums.1 / sums.2 else 0
  let intercept := y_mean - slope * x_mean
  let next_x := n
  fmax (intercept + slope * next_x) 1

/-- Cap of `models/time_series.rs` lines 81-85: the largest observed
median (`fold(0.0, max)`), scaled by 1.5. -/
def ts_max_median (block_distributions : List BlockDistribution) : ℚ :=
  (ts_medians block_distributions).foldl (fun m p => fmax m p) 0

/-- Time-series model, `models/time_series.rs::get_prediction_time_series`
(lines 12-89, the `f64`-returning revision: it takes no `latest_block`,
never errors, and falls back to the moving average below 3 blocks).  The
body is the composition of the named pieces above:
`round_to_9_places(predicted_price.min(reasonable_max))` with
`predicted_price = ts_pred` (already floored at 1.0) and
`reasonable_max = ts_max_median * 1.5`.  The `f64` arithmetic is idealised
as exact rational arithmetic; every theorem below instantiates it only at
inputs where `f64` evaluation is exact.  The degenerate `0.0/0.0` (all
considered blocks empty) is `0` in `ℚ` where `f64` gives NaN; the
theorems below exclude that case. -/
def get_prediction_time_series (block_distributions : List BlockDistribution) : ℚ :=
  if min 20 block_distributions.length < 3 then swma_price block_distributions
  else
    round_to_9_places
      (fmin (ts_pred block_distributions) (ts_max_median block_distributions * (3 / 2)))

/-- Big-endian encoding of a value into exactly `n` bytes (high bits beyond
`n` bytes are discarded, as the fixed-width `put_u16`/`put_u64`/
`to_be_bytes::<N>` writers do by construction of their argument types). -/
def toBytesBE : ℕ → ℕ → List ℕ
  | 0, _ => []
  | n + 1, v => toBytesBE n (v / 256) ++ [v % 256]

/-- Oracle record, `chain/types.rs::OraclePayloadRecordV2` (`typ : u16`,
`value : U240`). -/
structure OraclePayloadRecordV2 where
  typ : ℕ
  value : ℕ
deriving DecidableEq, Repr

/-- Oracle header, `chain/types.rs::OraclePayloadHeaderV2` (`version : u8`,
`height : u64`, `chain_id : u64`, `system_id : u8`, `timestamp : U48`,
`length : u16`). -/
structure OraclePayloadHeaderV2 where
  version : ℕ
  height : ℕ
  chain_id : ℕ
  system_id : ℕ
  timestamp : ℕ
  length : ℕ
deriving DecidableEq, Repr

/-- Oracle payload, `chain/types.rs::OraclePayloadV2`. -/
structure OraclePayloadV2 where
  header : OraclePayloadHeaderV2
  records : List OraclePayloadRecordV2
deriving DecidableEq, Repr

/-- Record encoder, `chain/encode.rs` impl for `OraclePayloadRecordV2`
(lines 24-42): `put_u16(typ)` then `put_slice(value.to_be_bytes::<30>())`,
appended to the buffer; returns the new buffer and the written size. -/
def record_to_encoded_payload (r : OraclePayloadRecordV2) (buf : List ℕ) : List ℕ × ℕ :=
  let buf := buf ++ toBytesBE 2 r.typ
  let buf := buf ++ toBytesBE 30 r.value
  (buf, 2 + 30)

/-- Header encoder, `chain/encode.rs` impl for `OraclePayloadHeaderV2`
(lines 44-77): 6 zero bytes, `put_u16(length)`,
`put_slice(timestamp.to_be_bytes::<6>())`, `put_u8(system_id)`,
`put_u64(chain_id)`, `put_u64(height)`, `put_u8(version)`. -/
def header_to_encoded_payload (h : OraclePayloadHeaderV2) (buf : List ℕ) : List ℕ × ℕ :=
  let buf := buf ++ List.replicate 6 0
  let buf := buf ++ toBytesBE 2 h.length
  let buf := buf ++ toBytesBE 6 h.timestamp
  let buf := buf ++ toBytesBE 1 h.system_id
  let buf := buf ++ toBytesBE 8 h.chain_id
  let buf := buf ++ toBytesBE 8 h.height
  let buf := buf ++ toBytesBE 1 h.version
  (buf, 6 + 2 + 6 + 1 + 8 + 8 + 1)

/-- Payload encoder, `chain/encode.rs` impl for `OraclePayloadV2`
(lines 9-22): the header followed by each record in order. -/
def payload_to_encoded_payload (p : OraclePayloadV2) (buf : List ℕ) : List ℕ × ℕ :=
  let hr := header_to_encoded_payload p.header buf
  p.records.foldl
    (fun acc record =>
      let rr := record_to_encoded_payload record acc.1
      (rr.1, acc.2 + rr.2))
    hr

/-- Signed-payload assembly, `chain/sign.rs` impl for
`SignedOraclePayloadV2::to_signed_payload` (lines 12-37): the payload is
encoded into an internal buffer, the keccak-256 hash of that buffer is
signed (external secp256k1 crypto — the resulting 65-byte `r‖s‖v`
signature bytes are taken here as the parameter `sig`), the signature is
appended to the internal buffer, and the whole is copied into `buf`. -/
def to_signed_payload (p : OraclePayloadV2) (sig : List ℕ) (buf : List ℕ) : List ℕ × ℕ :=
  let inner := payload_to_encoded_payload p []
  let buf_int := inner.1 ++ sig
  (buf ++ buf_int, inner.2 + sig.length)

/-- System enumeration, `types.rs::System`. -/
inductive System where
  | ethereum
  | base
  | polygon
deriving DecidableEq, Repr

/-- Network enumeration, `types.rs::Network`. -/
inductive Network where
  | mainnet
deriving DecidableEq, Repr

/-- Chain-id mapping, `types.rs::SystemNetworkKey::to_chain_id`. -/
def to_chain_id : System → Network → ℕ
  | System.ethereum, Network.mainnet => 1
  | System.base, Network.mainnet => 8453
  | System.polygon, Network.mainnet => 137

/-- Agent payload, `types.rs::AgentPayload`, restricted to the fields read
by the oracle conversion (`from_block`, `system`, `network`, `price`, and
the timestamp, carried here directly as `timestamp_millis`, the value of
`timestamp.timestamp_millis()`).  `price` is the `U256` wei price. -/
structure AgentPayload where
  from_block : ℕ
  timestamp_millis : ℕ
  system : System
  network : Network
  price : ℕ
deriving DecidableEq, Repr

/-- Helper `chain/types.rs::get_network_config_values`: the system id is
always 2 and the chain id comes from `SystemNetworkKey::to_chain_id`. -/
def get_network_config_values (system : System) (network : Network) : ℕ × ℕ :=
  (2, to_chain_id system network)

/-- Oracle conversion, `chain/types.rs` `impl From<AgentPayload> for
OraclePayloadV2` (lines 44-69).  The record value is produced by copying
`price.to_be_bytes::<32>()[2..]` — the low 30 bytes, i.e. `price mod
2^240` — into the `U240`; the high 16 bits are discarded without any
check, and the conversion is total (it cannot fail). -/
def agent_payload_to_oracle_payload_v2 (payload : AgentPayload) : OraclePayloadV2 :=
  let sc := get_network_config_values payload.system payload.network
  { header :=
      { version := 2
        height := payload.from_block
        chain_id := sc.2
        system_id := sc.1
        timestamp := payload.timestamp_millis
        length := 1 }
    records := [{ typ := 340, value := payload.price % 2 ^ 240 }] }

/-- Value of a single hexadecimal digit character, or `none` for any other
character; mirrors what `from_str_radix(.., 16)` accepts per digit. -/
def hex_digit_value (c : Char) : Option ℕ :=
  if '0' ≤ c ∧ c ≤ '9' then some (c.toNat - '0'.toNat)
  else if 'a' ≤ c ∧ c ≤ 'f' then some (c.toNat - 'a'.toNat + 10)
  else if 'A' ≤ c ∧ c ≤ 'F' then some (c.toNat - 'A'.toNat + 10)
  else none

/-- Numeric value of a digit sequence, failing on the first non-hex
character. -/
def digits_value (s : List Char) : Option ℕ :=
  s.foldl
    (fun acc c =>
      match acc, hex_digit_value c with
      | some v, some d => some (16 * v + d)
      | _, _ => none)
    (some 0)

/-- Rust `u{N}::from_str_radix` for unsigned integers accepts one optional
leading plus sign before the digits. -/
def drop_leading_plus : List Char → List Char
  | '+' :: rest => rest
  | s => s

/-- Embedding of `uN::from_str_radix(s, 16)` for an `N`-bit unsigned type:
an optional leading plus, then a non-empty run of hex digits whose value
fits in `N` bits; every other input (empty, stray characters, a minus
sign, overflow) is an error, here `none`. -/
def from_str_radix16 (width : ℕ) (s : List Char) : Option ℕ :=
  let t := drop_leading_plus s
  if t.isEmpty then none
  else
    match digits_value t with
    | none => none
    | some v => if v < 2 ^ width then some v else none

/-- Optional removal of a literal leading "0x",
`hex_str.strip_prefix("0x").unwrap_or(hex_str)` in `rpc.rs`. -/
def strip_hex_0x (s : List Char) : List Char :=
  if s.take 2 = ['0', 'x'] then s.drop 2 else s

/-- Hex parser `rpc.rs::parse_hex_to_u64` (lines 223-226): on any parse
failure the error is swallowed by `unwrap_or(0)` and 0 is returned. -/
def parse_hex_to_u64 (hex_str : List Char) : ℕ :=
  (from_str_radix16 64 (strip_hex_0x hex_str)).getD 0

/-- Hex parser `rpc.rs::parse_hex_to_u128` (lines 228-233): the parse error
is logged and then swallowed by `unwrap_or(0)`. -/
def parse_hex_to_u128 (hex_str : List Char) : ℕ :=
  (from_str_radix16 128 (strip_hex_0x hex_str)).getD 0

/-- Specification-side description of a string `parse_hex_to_uN` accepts:
after optionally removing "0x" and one leading plus, a non-empty all-hex
digit string whose value fits in `width` bits. -/
def is_valid_hex (width : ℕ) (s : List Char) : Bool :=
  let t := drop_leading_plus (strip_hex_0x s)
  !t.isEmpty && t.all (fun c => (hex_digit_value c).isSome) &&
    decide ((t.foldl (fun acc c => 16 * acc + (hex_digit_value c).getD 0) 0) < 2 ^ width)

/-- Parsed transaction, `rpc.rs::Transaction`. -/
structure Transaction where
  hash : String
  gas_price : Option ℕ
  max_fee_per_gas : Option ℕ
  max_priority_fee_per_gas : Option ℕ
deriving DecidableEq, Repr

/-- Parsed block, `rpc.rs::Block`; the timestamp is kept as the parsed
unix-seconds value fed to `Utc.timestamp_opt`. -/
structure Block where
  number : ℕ
  timestamp : ℕ
  gas_limit : ℕ
  gas_used : ℕ
  base_fee_per_gas : Option ℕ
  transactions : List Transaction
deriving DecidableEq, Repr

/-- Projection of one transaction object of the JSON block: each field is
the result of `tx[key].as_str()` (`none` when the key is absent or not a
string). -/
structure TxJson where
  hash : Option String
  gasPrice : Option String
  maxFeePerGas : Option String
  maxPriorityFeePerGas : Option String
deriving DecidableEq, Repr

/-- Projection of the JSON block object read by `rpc.rs::parse_block`:
each scalar field is the result of `value[key].as_str()`, and
`transactions` is `value["transactions"].as_array()` with its elements
projected. -/
structure BlockJson where
  number : Option String
  timestamp : Option String
  baseFeePerGas : Option String
  gasUsed : Option String
  gasLimit : Option String
  transactions : Option (List TxJson)
deriving DecidableEq, Repr

/-- Parse of a single transaction inside `rpc.rs::parse_transactions`
(lines 281-310): the hash must be a string; the three fee fields are
optional and each present one goes through `parse_hex_to_u128`; then
either legacy pricing (`gasPrice` present) or full EIP-1559 pricing (both
`maxFeePerGas` and `maxPriorityFeePerGas` present) is required. -/
def parse_tx (tx : TxJson) : Except String Transaction :=
  match tx.hash with
  | none => Except.error ("Missing or invalid transaction hash")
  | some tx_hash =>
    let gas_price := tx.gasPrice.map (fun s => parse_hex_to_u128 s.data)
    let max_fee_per_gas := tx.maxFeePerGas.map (fun s => parse_hex_to_u128 s.data)
    let max_priority_fee_per_gas :=
      tx.maxPriorityFeePerGas.map (fun s => parse_hex_to_u128 s.data)
    let has_legacy_pricing := gas_price.isSome
    let has_eip1559_pricing := max_fee_per_gas.isSome && max_priority_fee_per_gas.isSome
    if !has_legacy_pricing && !has_eip1559_pricing then
      Except.error ("Transaction missing valid gas pricing")
    else
      Except.ok
        { hash := tx_hash
          gas_price := gas_price
          max_fee_per_gas := max_fee_per_gas
          max_priority_fee_per_gas := max_priority_fee_per_gas }

/-- Transaction-array parse, `rpc.rs::parse_transactions` (lines 277-315):
errors when the array is missing, otherwise collects the element parses,
stopping at the first failure. -/
def parse_transactions (block : Option (List TxJson)) : Except String (List Transaction) :=
  match block with
  | none => Except.error ("Missing or invalid transactions array")
  | some txs_array =>
    txs_array.foldr
      (fun tx acc =>
        match parse_tx tx, acc with
        | Except.ok t, Except.ok rest => Except.ok (t :: rest)
        | Except.error e, _ => Except.error e
        | _, Except.error e => Except.error e)
      (Except.ok [])

/-- Block parse, `rpc.rs::parse_block` (lines 235-275): `number`,
`timestamp`, `gasUsed` and `gasLimit` must be present as strings (a typed
error otherwise), but their hex content goes through
`parse_hex_to_u64`, which silently maps malformed hex to 0;
`baseFeePerGas` is optional. -/
def parse_block (value : BlockJson) : Except String Block :=
  match value.number with
  | none => Except.error ("Missing or invalid number field")
  | some number_hex =>
    let number := parse_hex_to_u64 number_hex.data
    match value.timestamp with
    | none => Except.error ("Missing or invalid timestamp field")
    | some timestamp_hex =>
      let timestamp_secs := parse_hex_to_u64 timestamp_hex.data
      let base_fee_per_gas := value.baseFeePerGas.map (fun s => parse_hex_to_u64 s.data)
      match value.gasUsed with
      | none => Except.error ("Missing or invalid gasUsed field")
      | some gas_used_hex =>
        let gas_used := parse_hex_to_u64 gas_used_hex.data
        match value.gasLimit with
        | none => Except.error ("Missing or invalid gasLimit field")
        | some gas_limit_hex =>
          let gas_limit := parse_hex_to_u64 gas_limit_hex.data
          match parse_transactions value.transactions with
          | Except.error e => Except.error e
          | Except.ok transactions =>
            Except.ok
              { number := number
                timestamp := timestamp_secs
                gas_used := gas_used
                gas_limit := gas_limit
                base_fee_per_gas := base_fee_per_gas
                transactions := transactions }

/-- Specification-side helper: the bucket pool the percentile model draws
from — all buckets of the last `min(5, len)` distributions, in order. -/
def percentile_pool (block_distributions : List BlockDistribution) : List Bucket :=
  flat_buckets
    (block_distributions.drop (block_distributions.length - min 5 block_distributions.length))

/-- Specification-side helper: the total transaction count of the buckets
priced at most `g`. -/
def weight_le (l : List Bucket) (g : ℚ) : ℕ :=
  total_count (l.filter fun b => decide (b.gwei ≤ g))

/-! Helper lemmas. -/

/-- Length of a fixed-width big-endian encoding. -/
theorem toBytesBE_length (n v : ℕ) : (toBytesBE n v).length = n := by
  induction n generalizing v with
  | zero => rfl
  | succ n ih => simp [toBytesBE, ih]

/-- Store ingestion keeps the most recent 50 entries of the appended list. -/
theorem ingest_block_eq_drop (s : List BlockDistribution) (d : BlockDistribution) :
    ingest_block s d = (s ++ [d]).drop (s.length + 1 - 50) := by
  unfold ingest_block MAX_NUM_BLOCK_DISTRIBUTIONS
  simp only [List.length_append, List.length_singleton]
  split
  · rfl
  · rw [Nat.sub_eq_zero_of_le (by omega), List.drop_zero]

/-- Iterated ingestion from a small enough store keeps the last 50 entries
of the concatenated arrival sequence. -/
theorem ingest_blocks_eq_drop (ds : List BlockDistribution) :
    ∀ s : List BlockDistribution, s.length ≤ 50 →
      ingest_blocks s ds = (s ++ ds).drop (s.length + ds.length - 50) := by
  induction ds with
  | nil =>
    intro s hs
    simp only [ingest_blocks, List.foldl_nil, List.append_nil, List.length_nil,
      Nat.add_zero]
    rw [Nat.sub_eq_zero_of_le hs, List.drop_zero]
  | cons d ds ih =>
    intro s hs
    have hstep : ingest_blocks s (d :: ds) = ingest_blocks (ingest_block s d) ds := rfl
    have hlen : (ingest_block s d).length = s.length + 1 - (s.length + 1 - 50) := by
      rw [ingest_block_eq_drop, List.length_drop]
      simp
    have hle : (ingest_block s d).length ≤ 50 := by omega
    rw [hstep, ih _ hle, hlen, ingest_block_eq_drop]
    rw [← List.drop_append_of_le_length (by simp; omega), List.drop_drop]
    have harr : (s ++ [d]) ++ ds = s ++ d :: ds := by simp
    rw [harr]
    congr 1
    simp only [List.length_cons]
    omega

/-! Claim C1. -/

/-- C1: encoding a `SignedOraclePayloadV2` produces exactly
`Header ‖ Records ‖ Signature` in the fixed big-endian layout — a 32-byte
header of 6 zero bytes, `length : u16`, `timestamp : u48` (milliseconds),
`system_id : u8`, `chain_id : u64`, `height : u64`, `version : u8` — each
record being 32 bytes (`type : u16` then `value : u240` big-endian), with
the 65-byte secp256k1 signature appended, so a one-record envelope is
exactly 129 bytes. -/
theorem signed_oracle_payload_layout (h : OraclePayloadHeaderV2)
    (r : OraclePayloadRecordV2) (sig : List ℕ) (hsig : sig.length = 65) :
    (to_signed_payload ⟨h, [r]⟩ sig []).1 =
      (List.replicate 6 0 ++ toBytesBE 2 h.length ++ toBytesBE 6 h.timestamp ++
        toBytesBE 1 h.system_id ++ toBytesBE 8 h.chain_id ++ toBytesBE 8 h.height ++
        toBytesBE 1 h.version) ++
      (toBytesBE 2 r.typ ++ toBytesBE 30 r.value) ++ sig ∧
    (List.replicate 6 0 ++ toBytesBE 2 h.length ++ toBytesBE 6 h.timestamp ++
      toBytesBE 1 h.system_id ++ toBytesBE 8 h.chain_id ++ toBytesBE 8 h.height ++
      toBytesBE 1 h.version).length = 32 ∧
    (toBytesBE 2 r.typ ++ toBytesBE 30 r.value).length = 32 ∧
    (to_signed_payload ⟨h, [r]⟩ sig []).1.length = 129 ∧
    (to_signed_payload ⟨h, [r]⟩ sig []).2 = 129 := by
  refine ⟨?_, ?_, ?_, ?_, ?_⟩
  · simp [to_signed_payload, payload_to_encoded_payload, header_to_encoded_payload,
      record_to_encoded_payload]
  · simp [toBytesBE_length]
  · simp [toBytesBE_length]
  · simp [to_signed_payload, payload_to_encoded_payload, header_to_encoded_payload,
      record_to_encoded_payload, toBytesBE_length, hsig]
  · simp [to_signed_payload, payload_to_encoded_payload, header_to_encoded_payload,
      record_to_encoded_payload, hsig]

/-- Witness for C1: the layout theorem instantiated at a concrete header,
record and 65-byte signature. -/
theorem signed_oracle_payload_layout_witness :
    (List.replicate 65 7 : List ℕ).length = 65 ∧
    (to_signed_payload ⟨⟨2, 1236, 1, 2, 1741250000002, 1⟩, [⟨340, 76543⟩]⟩
      (List.replicate 65 7) []).1.length = 129 :=
  ⟨by simp,
    ((signed_oracle_payload_layout ⟨2, 1236, 1, 2, 1741250000002, 1⟩ ⟨340, 76543⟩
      (List.replicate 65 7) (by simp)).2.2.2.1)⟩

/-! Claim C2. -/

/-- C2: after every ingestion sequence the store holds at most 50
distributions; the surviving distributions are exactly the most recent
suffix of the arrival sequence, in arrival order; and after ingesting 55
distinct distributions into an empty store the length is 50 and the first
survivor is the 6th distribution ingested. -/
theorem store_eviction_spec :
    (∀ ds : List BlockDistribution, (ingest_blocks [] ds).length ≤ 50) ∧
    (∀ ds : List BlockDistribution, ingest_blocks [] ds = ds.drop (ds.length - 50)) ∧
    (ingest_blocks [] ((List.range 55).map fun i => [⟨0, i⟩])).length = 50 ∧
    (ingest_blocks [] ((List.range 55).map fun i => [⟨0, i⟩])).head? =
      some [⟨0, 5⟩] := by
  have hmain : ∀ ds : List BlockDistribution,
      ingest_blocks [] ds = ds.drop (ds.length - 50) := by
    intro ds
    have := ingest_blocks_eq_drop ds [] (by simp)
    simpa using this
  refine ⟨?_, hmain, ?_, ?_⟩
  · intro ds
    rw [hmain, List.length_drop]
    omega
  · rw [hmain]
    simp
  · rw [hmain]
    simp only [List.length_map, List.length_range]
    rw [← List.map_drop]
    rw [List.head?_map]
    norm_num [List.drop_eq_getElem_cons (by simp : (5 : ℕ) < (List.range 55).length)]

/-! Claim C3. -/

/-- Counterexample for C3: at parent base 2^62, gas limit 4, gas used 6
the `u64` product `parent_base_fee * gas_used_delta` (= 2^64) wraps to 0,
so the code returns `pb + 1` while the claim's exact formula gives
`pb + 2^60`; and at gas limit 1, gas used 5 the division by the zero gas
target panics instead of returning any value, so the claimed equations do
not hold over every parent header. -/
theorem calc_base_fee_counterexample :
    calc_base_fee ⟨0, 0, 4, 6, some (2 ^ 62)⟩ = Except.ok (some (2 ^ 62 + 1)) ∧
    2 ^ 62 + 1 ≠ 2 ^ 62 + max 1 (2 ^ 62 * (6 - 4 / 2) / (4 / 2) / 8) ∧
    calc_base_fee ⟨0, 0, 1, 5, some 7⟩ =
      Except.error ("attempt to divide by zero") := by
  refine ⟨rfl, by decide, rfl⟩

/-- C3 (amended): `calc_base_fee` returns `none` exactly when the parent
header has no base fee.  With parent base fee `pb` and
`target = gas_limit / 2`: when `gas_used = target` it returns `pb`
unchanged; when `gas_used > target` and `target = 0` the division panics;
when `gas_used > target` and `target > 0` it returns
`(pb + max((pb·(gas_used−target) mod 2^64)/target/8, 1)) mod 2^64` —
which coincides with the claim's exact
`pb + max(1, pb·(gas_used−target)/target/8)` whenever the product and the
sum fit in a `u64`; and when `gas_used < target` it returns the
saturating difference `pb − (pb·(target−gas_used) mod 2^64)/target/8`,
exact under the same product bound (all integer division). -/
theorem calc_base_fee_spec (b : BlockHeader) :
    (calc_base_fee b = Except.ok none ↔ b.base_fee_per_gas = none) ∧
    (∀ pb : ℕ, b.base_fee_per_gas = some pb →
      (b.gas_used = b.gas_limit / 2 → calc_base_fee b = Except.ok (some pb)) ∧
      (b.gas_limit / 2 = 0 → 0 < b.gas_used →
        calc_base_fee b = Except.error ("attempt to divide by zero")) ∧
      (b.gas_limit / 2 < b.gas_used → 0 < b.gas_limit / 2 →
        calc_base_fee b = Except.ok (some ((pb +
            max (pb * (b.gas_used - b.gas_limit / 2) % 2 ^ 64 / (b.gas_limit / 2) / 8) 1)
          % 2 ^ 64)) ∧
        (pb * (b.gas_used - b.gas_limit / 2) < 2 ^ 64 →
          pb + max 1 (pb * (b.gas_used - b.gas_limit / 2) / (b.gas_limit / 2) / 8) < 2 ^ 64 →
          calc_base_fee b = Except.ok (some
            (pb + max 1 (pb * (b.gas_used - b.gas_limit / 2) / (b.gas_limit / 2) / 8))))) ∧
      (b.gas_used < b.gas_limit / 2 →
        calc_base_fee b = Except.ok (some
          (pb - pb * (b.gas_limit / 2 - b.gas_used) % 2 ^ 64 / (b.gas_limit / 2) / 8)) ∧
        (pb * (b.gas_limit / 2 - b.gas_used) < 2 ^ 64 →
          calc_base_fee b = Except.ok (some
            (pb - pb * (b.gas_limit / 2 - b.gas_used) / (b.gas_limit / 2) / 8))))) := by
  constructor
  · unfold calc_base_fee
    cases hb : b.base_fee_per_gas with
    | none => simp
    | some pb =>
      simp only [Option.some.injEq]
      constructor
      · intro h
        exfalso
        revert h
        split
        · simp
        · split
          · split
            · simp
            · simp
          · simp
      · intro h
        exact absurd h (by simp)
  · intro pb hb
    refine ⟨?_, ?_, ?_, ?_⟩
    · intro heq
      unfold calc_base_fee
      rw [hb]
      simp [ELASTICITY_MULTIPLIER, heq]
    · intro h0 hgu
      unfold calc_base_fee
      rw [hb]
      simp only [ELASTICITY_MULTIPLIER, BASE_FEE_CHANGE_DENOMINATOR]
      rw [if_neg (by omega), if_pos (by omega), if_pos h0]
    · intro hgt htpos
      constructor
      · unfold calc_base_fee
        rw [hb]
        simp only [ELASTICITY_MULTIPLIER, BASE_FEE_CHANGE_DENOMINATOR]
        rw [if_neg (by omega), if_pos hgt, if_neg (by omega)]
      · intro hx hsum
        unfold calc_base_fee
        rw [hb]
        simp only [ELASTICITY_MULTIPLIER, BASE_FEE_CHANGE_DENOMINATOR]
        rw [if_neg (by omega), if_pos hgt, if_neg (by omega)]
        rw [Nat.mod_eq_of_lt hx]
        rw [Nat.mod_eq_of_lt (by omega)]
        congr 2
        omega
    · intro hlt
      constructor
      · unfold calc_base_fee
        rw [hb]
        simp only [ELASTICITY_MULTIPLIER, BASE_FEE_CHANGE_DENOMINATOR]
        rw [if_neg (by omega), if_neg (by omega)]
        simp
      · intro hx
        unfold calc_base_fee
        rw [hb]
        simp only [ELASTICITY_MULTIPLIER, BASE_FEE_CHANGE_DENOMINATOR]
        rw [if_neg (by omega), if_neg (by omega)]
        rw [Nat.mod_eq_of_lt hx]
        simp

/-- Witness for C3 (amended): the increase branch evaluated at a concrete
header (gas used 20M against a 15M target, parent base 1 gwei), where the
intermediates fit in a `u64` and the exact formula applies. -/
theorem calc_base_fee_spec_witness :
    calc_base_fee ⟨1000, 0, 30000000, 20000000, some 1000000000⟩ =
      Except.ok (some 1041666666) := by
  have h := (((calc_base_fee_spec ⟨1000, 0, 30000000, 20000000, some 1000000000⟩).2
    1000000000 rfl).2.2.1 (by norm_num) (by norm_num)).2 (by norm_num) (by norm_num)
  rw [h]
  norm_num

/-- Banker's rounding is the identity on integers. -/
theorem roundHalfEven_intCast (n : ℤ) : roundHalfEven (n : ℚ) = n := by
  unfold roundHalfEven
  simp only [Int.floor_intCast, sub_self]
  norm_num

/-- Rounding to 9 decimal places is the identity on exact multiples of
`10⁻⁹` coming from a natural numerator. -/
theorem round_dp9_natCast_div (w : ℕ) :
    round_dp9 ((w : ℚ) / 1000000000) = (w : ℚ) / 1000000000 := by
  unfold round_dp9
  have h : ((w : ℚ) / 1000000000) * 1000000000 = ((w : ℤ) : ℚ) := by
    push_cast
    field_simp
  rw [h, roundHalfEven_intCast]
  congr 1

/-- Conversion to gwei structurally cannot fail in this revision. -/
theorem wei_to_gwei_isOk (w : ℕ) : (wei_to_gwei w).isOk = true := rfl

/-! Claim C4. -/

/-- C4: the pending-floor model returns the first pending bucket's gwei
plus `10⁻⁹` gwei (rounded to 9 decimal places) with settlement `Immediate`
and `from_block = latest_block + 1` whenever the pending distribution is
present and non-empty, fails with `InsufficientData` when it is absent or
empty, and on `[{5.0,3},{10.0,5},{15.0,2}]` with latest block 100 returns
`(5.000000001, Immediate, 101)`. -/
theorem pending_floor_spec :
    (∀ latest_block : ℕ,
      apply_model_pending_floor none latest_block =
        Except.error (ModelError.insufficientData
          ("PendingFloor model requires pending block distribution data"))) ∧
    (∀ latest_block : ℕ,
      apply_model_pending_floor (some []) latest_block =
        Except.error (ModelError.insufficientData
          ("PendingFloor model requires non-empty pending block distribution"))) ∧
    (∀ (b : Bucket) (rest : List Bucket) (latest_block : ℕ),
      apply_model_pending_floor (some (b :: rest)) latest_block =
        Except.ok (round_to_9_places (b.gwei + 1 / 1000000000), Settlement.immediate,
          latest_block + 1)) ∧
    apply_model_pending_floor (some [⟨5, 3⟩, ⟨10, 5⟩, ⟨15, 2⟩]) 100 =
      Except.ok (5000000001 / 1000000000, Settlement.immediate, 101) := by
  refine ⟨fun _ => rfl, fun _ => rfl, ?_, ?_⟩
  · intro b rest latest_block
    simp [apply_model_pending_floor, get_prediction_pending_floor, ONE_WEI_IN_GWEI]
  · simp only [apply_model_pending_floor, get_prediction_pending_floor, ONE_WEI_IN_GWEI,
      List.isEmpty_cons, List.head?_cons, Option.map_some, Option.getD_some,
      Bool.false_eq_true, if_false]
    norm_num [round_to_9_places, round_eq]

/-! Claim C7. -/

/-- Counterexample for C7: a legacy transaction (`gas_price` present)
with no base fee does not succeed — `calc_fee_gwei` demands the base fee
before inspecting `gas_price` and returns an error. -/
theorem calc_fee_gwei_counterexample :
    calc_fee_gwei (some 5000000000) none none none =
      Except.error ("No base fee per gas value") ∧
    (calc_fee_gwei (some 5000000000) none none none).isOk = false :=
  ⟨rfl, rfl⟩

/-- C7 (amended): `calc_fee_gwei` fails exactly when the base fee is
absent or when (without `gas_price`) the EIP-1559 fields are incomplete;
with the base fee present it returns `wei_to_gwei(gas_price)` in the
legacy case and `wei_to_gwei(min(max_fee − base_fee, max_priority))` in
the EIP-1559 case; and when `max_fee < base_fee` the `u128` subtraction
wraps and the call still succeeds instead of returning an `InvalidData`
error. -/
theorem calc_fee_gwei_spec (gas_price max_fee max_priority base_fee : Option ℕ) :
    ((calc_fee_gwei gas_price max_fee max_priority base_fee).isOk = false ↔
      base_fee = none ∨ (gas_price = none ∧ (max_fee = none ∨ max_priority = none))) ∧
    (∀ bf gp : ℕ, base_fee = some bf → gas_price = some gp →
      calc_fee_gwei gas_price max_fee max_priority base_fee = wei_to_gwei gp) ∧
    (∀ bf mf mp : ℕ, base_fee = some bf → gas_price = none → max_fee = some mf →
      max_priority = some mp → bf ≤ mf → mf < 2 ^ 128 →
      calc_fee_gwei gas_price max_fee max_priority base_fee =
        wei_to_gwei (min (mf - bf) mp)) ∧
    (∀ bf mf mp : ℕ, base_fee = some bf → gas_price = none → max_fee = some mf →
      max_priority = some mp → mf < bf →
      (calc_fee_gwei gas_price max_fee max_priority base_fee).isOk = true) := by
  refine ⟨?_, ?_, ?_, ?_⟩
  · cases base_fee with
    | none => simp [calc_fee_gwei, Except.isOk, Except.toBool]
    | some bf =>
      cases gas_price with
      | some gp => simp [calc_fee_gwei, wei_to_gwei_isOk]
      | none =>
        cases max_fee with
        | none => simp [calc_fee_gwei, Except.isOk, Except.toBool]
        | some mf =>
          cases max_priority with
          | none => simp [calc_fee_gwei, Except.isOk, Except.toBool]
          | some mp => simp [calc_fee_gwei, wei_to_gwei_isOk]
  · intro bf gp hbf hgp
    subst hbf hgp
    rfl
  · intro bf mf mp hbf hgp hmf hmp hle hlt
    subst hbf hgp hmf hmp
    show wei_to_gwei (min ((mf + 2 ^ 128 - bf) % 2 ^ 128) mp) = _
    have hwrap : (mf + 2 ^ 128 - bf) % 2 ^ 128 = mf - bf := by omega
    rw [hwrap]
  · intro bf mf mp hbf hgp hmf hmp _
    subst hbf hgp hmf hmp
    exact wei_to_gwei_isOk _

/-- Witness for C7 (amended): the EIP-1559 branch at
`max_fee = 30 gwei, max_priority = 2 gwei, base_fee = 10 gwei` yields an
effective tip of 2 gwei. -/
theorem calc_fee_gwei_spec_witness :
    calc_fee_gwei none (some 30000000000) (some 2000000000) (some 10000000000) =
      Except.ok 2 := by
  have h := (calc_fee_gwei_spec none (some 30000000000) (some 2000000000)
    (some 10000000000)).2.2.1 10000000000 30000000000 2000000000 rfl rfl rfl rfl
    (by norm_num) (by norm_num)
  rw [h]
  show wei_to_gwei 2000000000 = Except.ok 2
  unfold wei_to_gwei
  rw [if_pos (by norm_num)]
  show Except.ok (round_dp9 (((2000000000 : ℕ) : ℚ) / 1000000000)) = Except.ok 2
  rw [round_dp9_natCast_div]
  norm_num

/-! Claim C8. -/

/-- Counterexample for C8: at `wei = 2^96` the decimal is not
representable (`Decimal::from_u128` fails) and yet `wei_to_gwei`
silently returns `0.0` via `unwrap_or_default()` instead of an error,
even though the exact quotient is non-zero. -/
theorem wei_to_gwei_counterexample :
    wei_to_gwei (2 ^ 96) = Except.ok 0 ∧ ((2 ^ 96 : ℚ) / 1000000000 ≠ 0) := by
  constructor
  · unfold wei_to_gwei
    rw [if_neg (by norm_num)]
    norm_num [round_dp9, roundHalfEven]
  · norm_num

/-- C8 (amended): for `wei < 2^96` the conversion returns the exact
decimal quotient by `10^9` (the 9-decimal rounding is the identity
there), and for `wei ≥ 2^96` it silently substitutes the default
`Decimal::ZERO`, returning `0.0` with no error. -/
theorem wei_to_gwei_spec (wei : ℕ) :
    (wei < 2 ^ 96 → wei_to_gwei wei = Except.ok ((wei : ℚ) / 1000000000)) ∧
    (2 ^ 96 ≤ wei → wei_to_gwei wei = Except.ok 0) := by
  constructor
  · intro h
    unfold wei_to_gwei
    rw [if_pos h]
    show Except.ok (round_dp9 ((wei : ℚ) / 1000000000)) = _
    rw [round_dp9_natCast_div]
  · intro h
    unfold wei_to_gwei
    rw [if_neg (by omega)]
    norm_num [round_dp9, roundHalfEven]

/-- Witness for C8 (amended): 5 gwei in wei converts to exactly 5 gwei. -/
theorem wei_to_gwei_spec_witness :
    (5000000000 : ℕ) < 2 ^ 96 ∧
    wei_to_gwei 5000000000 = Except.ok (((5000000000 : ℕ) : ℚ) / 1000000000) :=
  ⟨by norm_num, (wei_to_gwei_spec 5000000000).1 (by norm_num)⟩

/-! Claim C9. -/

/-- Counterexample for C9: at `price = 2^240` (non-zero high 16 bits) the
oracle conversion does not error — it silently truncates, producing a
record whose value is 0. -/
theorem oracle_value_truncation_counterexample :
    (agent_payload_to_oracle_payload_v2
      ⟨1, 0, System.ethereum, Network.mainnet, 2 ^ 240⟩).records = [⟨340, 0⟩] ∧
    (0 : ℕ) ≠ 2 ^ 240 := by
  constructor
  · simp [agent_payload_to_oracle_payload_v2, get_network_config_values, Nat.mod_self]
  · norm_num

/-- C9 (amended): the oracle conversion is total; the record value is
`price mod 2^240` (the low 30 big-endian bytes), which equals the price
exactly when it fits in a `uint240` and silently discards the high 16
bits otherwise; the header carries version 2, `height = from_block`,
system id 2, the mapped chain id, the millisecond timestamp, and record
count 1. -/
theorem oracle_conversion_spec (payload : AgentPayload) :
    agent_payload_to_oracle_payload_v2 payload =
      { header :=
          { version := 2
            height := payload.from_block
            chain_id := to_chain_id payload.system payload.network
            system_id := 2
            timestamp := payload.timestamp_millis
            length := 1 }
        records := [⟨340, payload.price % 2 ^ 240⟩] } ∧
    (payload.price < 2 ^ 240 →
      (agent_payload_to_oracle_payload_v2 payload).records = [⟨340, payload.price⟩]) := by
  constructor
  · rfl
  · intro h
    have hmod : payload.price % 2 ^ 240 = payload.price := Nat.mod_eq_of_lt h
    show ([⟨340, payload.price % 2 ^ 240⟩] : List OraclePayloadRecordV2) = _
    rw [hmod]

/-- Witness for C9 (amended): a small price passes through unchanged. -/
theorem oracle_conversion_spec_witness :
    (7 : ℕ) < 2 ^ 240 ∧
    (agent_payload_to_oracle_payload_v2
      ⟨5, 6, System.base, Network.mainnet, 7⟩).records = [⟨340, 7⟩] :=
  ⟨by norm_num,
    (oracle_conversion_spec ⟨5, 6, System.base, Network.mainnet, 7⟩).2 (by norm_num)⟩

/-! Claim C10. -/

/-- Digit-folding propagates failure. -/
theorem digits_fold_none (u : List Char) :
    u.foldl
      (fun acc c =>
        match acc, hex_digit_value c with
        | some v, some d => some (16 * v + d)
        | _, _ => none)
      none = none := by
  induction u with
  | nil => rfl
  | cons c u ih =>
    simpa using ih

/-- Value characterisation of `digits_value`: it succeeds exactly when all
characters are hex digits, returning the base-16 value. -/
theorem digits_value_spec (t : List Char) :
    digits_value t =
      if t.all (fun c => (hex_digit_value c).isSome) then
        some (t.foldl (fun acc c => 16 * acc + (hex_digit_value c).getD 0) 0)
      else none := by
  have key : ∀ (u : List Char) (a : ℕ),
      u.foldl
        (fun acc c =>
          match acc, hex_digit_value c with
          | some v, some d => some (16 * v + d)
          | _, _ => none)
        (some a) =
      if u.all (fun c => (hex_digit_value c).isSome) then
        some (u.foldl (fun acc c => 16 * acc + (hex_digit_value c).getD 0) a)
      else none := by
    intro u
    induction u with
    | nil => intro a; simp
    | cons c u ih =>
      intro a
      cases hc : hex_digit_value c with
      | none =>
        simp [hc, digits_fold_none u]
      | some d =>
        simp [hc, ih]
  exact key t 0

/-- Malformed hex strings fall through `unwrap_or(0)`. -/
theorem parse_hex_invalid (width : ℕ) (s : List Char)
    (h : is_valid_hex width s = false) :
    (from_str_radix16 width (strip_hex_0x s)).getD 0 = 0 := by
  unfold is_valid_hex at h
  unfold from_str_radix16
  by_cases he : (drop_leading_plus (strip_hex_0x s)).isEmpty
  · simp [he]
  · by_cases ha :
        (drop_leading_plus (strip_hex_0x s)).all (fun c => (hex_digit_value c).isSome)
    · have hv : ¬ ((drop_leading_plus (strip_hex_0x s)).foldl
          (fun acc c => 16 * acc + (hex_digit_value c).getD 0) 0 < 2 ^ width) := by
        simp only [he, ha, Bool.not_false, Bool.true_and, decide_eq_false_iff_not] at h
        exact h
      simp only [he, Bool.false_eq_true, if_false]
      rw [digits_value_spec, if_pos ha]
      simp [hv]
    · simp only [he, Bool.false_eq_true, if_false]
      rw [digits_value_spec, if_neg (by simpa using ha)]
      rfl

/-- C10: the hex parsers `parse_hex_to_u64` and `parse_hex_to_u128` return
0 for every input that is not valid (optionally `0x`-prefixed) hexadecimal
of the right width instead of reporting an error, so a block whose
`number`, `timestamp`, `gasUsed` or `gasLimit` field is present but
malformed hex still parses successfully, with that field equal to 0. -/
theorem hex_parse_lenient_spec :
    (∀ s : List Char, is_valid_hex 64 s = false → parse_hex_to_u64 s = 0) ∧
    (∀ s : List Char, is_valid_hex 128 s = false → parse_hex_to_u128 s = 0) ∧
    (∀ (number_hex timestamp_hex gas_used_hex gas_limit_hex : String)
        (base_fee : Option String) (txs : List TxJson) (parsed : List Transaction),
      parse_transactions (some txs) = Except.ok parsed →
      parse_block ⟨some number_hex, some timestamp_hex, base_fee, some gas_used_hex,
          some gas_limit_hex, some txs⟩ =
        Except.ok
          { number := parse_hex_to_u64 number_hex.data
            timestamp := parse_hex_to_u64 timestamp_hex.data
            gas_limit := parse_hex_to_u64 gas_limit_hex.data
            gas_used := parse_hex_to_u64 gas_used_hex.data
            base_fee_per_gas := base_fee.map (fun s => parse_hex_to_u64 s.data)
            transactions := parsed }) ∧
    parse_block ⟨some ("0xZZ"), some ("0x1"), none, some ("junk"), some ("0x10"),
        some []⟩ =
      Except.ok
        { number := 0, timestamp := 1, gas_limit := 16, gas_used := 0,
          base_fee_per_gas := none, transactions := [] } := by
  refine ⟨?_, ?_, ?_, ?_⟩
  · intro s h
    exact parse_hex_invalid 64 s h
  · intro s h
    exact parse_hex_invalid 128 s h
  · intro number_hex timestamp_hex gas_used_hex gas_limit_hex base_fee txs parsed hp
    simp [parse_block, hp]
  · rfl

/-- Witness for C10: the string "0xZZ" is not valid hex and parses to 0. -/
theorem hex_parse_lenient_spec_witness :
    is_valid_hex 64 (("0xZZ").data) = false ∧ parse_hex_to_u64 (("0xZZ").data) = 0 :=
  ⟨by decide, hex_parse_lenient_spec.1 (("0xZZ").data) (by decide)⟩

/-! Claim C5. -/

/-- Insertion produces a permutation of consing. -/
theorem insertByGwei_perm (b : Bucket) (l : List Bucket) :
    (insertByGwei b l).Perm (b :: l) := by
  induction l with
  | nil => exact List.Perm.refl _
  | cons c rest ih =>
    unfold insertByGwei
    split
    · exact List.Perm.refl _
    · exact (List.Perm.cons c ih).trans (List.Perm.swap b c rest)

/-- Sorting produces a permutation of the input. -/
theorem sortByGwei_perm (l : List Bucket) : (sortByGwei l).Perm l := by
  induction l with
  | nil => exact List.Perm.refl _
  | cons b rest ih =>
    exact (insertByGwei_perm b (sortByGwei rest)).trans (List.Perm.cons b ih)

/-- Insertion into a gwei-sorted list keeps it sorted. -/
theorem insertByGwei_pairwise (b : Bucket) (l : List Bucket)
    (h : l.Pairwise (fun x y => x.gwei ≤ y.gwei)) :
    (insertByGwei b l).Pairwise (fun x y => x.gwei ≤ y.gwei) := by
  induction l with
  | nil => simp [insertByGwei]
  | cons c rest ih =>
    have hpair := List.pairwise_cons.mp h
    unfold insertByGwei
    split
    · rename_i hbc
      refine List.Pairwise.cons ?_ h
      intro x hx
      rcases List.mem_cons.mp hx with rfl | hx
      · exact hbc
      · exact le_trans hbc (hpair.1 x hx)
    · rename_i hbc
      have hcb : c.gwei ≤ b.gwei := le_of_lt (lt_of_not_le hbc)
      refine List.Pairwise.cons ?_ (ih hpair.2)
      intro x hx
      have hmem := (insertByGwei_perm b rest).mem_iff.mp hx
      rcases List.mem_cons.mp hmem with rfl | hx2
      · exact hcb
      · exact hpair.1 x hx2

/-- Sorting by gwei yields a gwei-sorted list. -/
theorem sortByGwei_pairwise (l : List Bucket) :
    (sortByGwei l).Pairwise (fun x y => x.gwei ≤ y.gwei) := by
  induction l with
  | nil => simp [sortByGwei]
  | cons b rest ih => exact insertByGwei_pairwise b (sortByGwei rest) ih

/-- Total count splits over cons. -/
theorem total_count_cons (b : Bucket) (l : List Bucket) :
    total_count (b :: l) = b.count + total_count l := by
  simp [total_count]

/-- Total count is invariant under permutation. -/
theorem total_count_perm {l₁ l₂ : List Bucket} (h : l₁.Perm l₂) :
    total_count l₁ = total_count l₂ := by
  unfold total_count
  exact (h.map Bucket.count).sum_eq

/-- Cumulative weight below a price is invariant under permutation. -/
theorem weight_le_perm {l₁ l₂ : List Bucket} (h : l₁.Perm l₂) (p : ℚ) :
    weight_le l₁ p = weight_le l₂ p :=
  total_count_perm (h.filter _)

/-- Cumulative weight below a price splits over cons. -/
theorem weight_le_cons (b : Bucket) (l : List Bucket) (p : ℚ) :
    weight_le (b :: l) p = (if b.gwei ≤ p then b.count else 0) + weight_le l p := by
  unfold weight_le
  by_cases hb : b.gwei ≤ p
  · simp [List.filter_cons, hb, total_count_cons]
  · simp [List.filter_cons, hb]

/-- Cumulative weight vanishes below every price in the list. -/
theorem weight_le_eq_zero (l : List Bucket) (p : ℚ) (h : ∀ x ∈ l, p < x.gwei) :
    weight_le l p = 0 := by
  unfold weight_le
  have hf : l.filter (fun b => decide (b.gwei ≤ p)) = [] := by
    rw [List.filter_eq_nil_iff]
    intro a ha
    simpa using not_le.mpr (h a ha)
  rw [hf]
  rfl

/-- Unfolding equation for the cumulative scan on a cons cell. -/
theorem cumulative_scan_cons (target : ℕ) (b : Bucket) (rest : List Bucket) (cum : ℕ) :
    cumulative_scan_price target (b :: rest) cum =
      if target ≤ cum + b.count then b.gwei
      else cumulative_scan_price target rest (cum + b.count) := rfl

/-- The accumulator can be folded into the target. -/
theorem cumulative_scan_shift (target : ℕ) (l : List Bucket) (cum : ℕ) :
    cumulative_scan_price target l cum = cumulative_scan_price (target - cum) l 0 := by
  induction l generalizing target cum with
  | nil => rfl
  | cons b rest ih =>
    rw [cumulative_scan_cons, cumulative_scan_cons]
    by_cases h : target ≤ cum + b.count
    · rw [if_pos h, if_pos (by omega)]
    · rw [if_neg h, if_neg (by omega)]
      rw [ih target (cum + b.count), ih (target - cum) (0 + b.count)]
      congr 1
      omega

/-- Characterisation of the cumulative scan on a sorted bucket list: for a
positive reachable target it returns the smallest listed price whose
cumulative weight reaches the target. -/
theorem cumulative_scan_spec (l : List Bucket)
    (hsort : l.Pairwise (fun x y => x.gwei ≤ y.gwei)) :
    ∀ target : ℕ, 0 < target → target ≤ total_count l →
      (∃ b ∈ l, b.gwei = cumulative_scan_price target l 0) ∧
      target ≤ weight_le l (cumulative_scan_price target l 0) ∧
      ∀ p : ℚ, p < cumulative_scan_price target l 0 → weight_le l p < target := by
  induction l with
  | nil =>
    intro target hpos hle
    simp [total_count] at hle
    omega
  | cons b rest ih =>
    intro target hpos hle
    have hpair := List.pairwise_cons.mp hsort
    by_cases hcase : target ≤ 0 + b.count
    · have hg : cumulative_scan_price target (b :: rest) 0 = b.gwei := by
        rw [cumulative_scan_cons, if_pos hcase]
      rw [hg]
      refine ⟨⟨b, List.mem_cons_self b rest, rfl⟩, ?_, ?_⟩
      · rw [weight_le_cons, if_pos (le_refl _)]
        omega
      · intro p hp
        have hz : weight_le (b :: rest) p = 0 := by
          refine weight_le_eq_zero _ _ ?_
          intro x hx
          rcases List.mem_cons.mp hx with rfl | hx
          · exact hp
          · exact lt_of_lt_of_le hp (hpair.1 x hx)
        omega
    · have hg : cumulative_scan_price target (b :: rest) 0 =
          cumulative_scan_price (target - b.count) rest 0 := by
        rw [cumulative_scan_cons, if_neg hcase, cumulative_scan_shift]
        congr 1
        omega
      rw [hg]
      have hpos' : 0 < target - b.count := by omega
      have hle' : target - b.count ≤ total_count rest := by
        rw [total_count_cons] at hle
        omega
      obtain ⟨⟨c, hc, hcg⟩, hw, hmin⟩ := ih hpair.2 (target - b.count) hpos' hle'
      have hbg : b.gwei ≤ cumulative_scan_price (target - b.count) rest 0 := by
        rw [← hcg]
        exact hpair.1 c hc
      refine ⟨⟨c, List.mem_cons_of_mem b hc, hcg⟩, ?_, ?_⟩
      · rw [weight_le_cons, if_pos hbg]
        omega
      · intro p hp
        have hr := hmin p hp
        rw [weight_le_cons]
        split <;> omega

/-- C5: on a non-empty store the percentile model pools the buckets of the
last `min(5, len)` distributions weighted by count, errors exactly when
their total transaction count is zero, and otherwise returns (rounded to 9
places, settlement `Fast`, `from_block = latest_block + 1`) the gwei of
the smallest pooled bucket whose cumulative count reaches
`⌊total · 0.75⌋`; on five identical `[{10,1},{20,2},{30,1}]` blocks it
returns `20.0`. -/
theorem percentile_spec :
    (∀ latest_block : ℕ,
      get_prediction_percentile [] latest_block =
        Except.error (ModelError.insufficientData
          ("Percentile model requires at least one block distribution"))) ∧
    (∀ (bds : List BlockDistribution) (latest_block : ℕ), bds ≠ [] →
      (total_count (percentile_pool bds) = 0 →
        get_prediction_percentile bds latest_block =
          Except.error (ModelError.insufficientData
            ("Percentile model requires blocks with transactions"))) ∧
      (0 < total_count (percentile_pool bds) →
        ∃ g : ℚ,
          get_prediction_percentile bds latest_block =
            Except.ok (round_to_9_places g, Settlement.fast, latest_block + 1) ∧
          (∃ b ∈ percentile_pool bds, b.gwei = g) ∧
          3 * total_count (percentile_pool bds) / 4 ≤ weight_le (percentile_pool bds) g ∧
          (0 < 3 * total_count (percentile_pool bds) / 4 →
            ∀ p : ℚ, p < g →
              weight_le (percentile_pool bds) p <
                3 * total_count (percentile_pool bds) / 4))) ∧
    get_prediction_percentile
      [[⟨10, 1⟩, ⟨20, 2⟩, ⟨30, 1⟩], [⟨10, 1⟩, ⟨20, 2⟩, ⟨30, 1⟩],
       [⟨10, 1⟩, ⟨20, 2⟩, ⟨30, 1⟩], [⟨10, 1⟩, ⟨20, 2⟩, ⟨30, 1⟩],
       [⟨10, 1⟩, ⟨20, 2⟩, ⟨30, 1⟩]] 100 =
      Except.ok (20, Settlement.fast, 101) := by
  refine ⟨fun _ => rfl, ?_, ?_⟩
  · intro bds latest_block hne
    obtain ⟨b0, bds', rfl⟩ := List.exists_cons_of_ne_nil hne
    have hbody : get_prediction_percentile (b0 :: bds') latest_block =
        (if total_count (sortByGwei (percentile_pool (b0 :: bds'))) = 0 then
          Except.error (ModelError.insufficientData
            ("Percentile model requires blocks with transactions"))
        else
          Except.ok
            (round_to_9_places
              (cumulative_scan_price (3 * total_count (sortByGwei (percentile_pool (b0 :: bds'))) / 4)
                (sortByGwei (percentile_pool (b0 :: bds'))) 0),
              Settlement.fast, latest_block + 1)) := rfl
    have htot : total_count (sortByGwei (percentile_pool (b0 :: bds'))) =
        total_count (percentile_pool (b0 :: bds')) :=
      total_count_perm (sortByGwei_perm _)
    constructor
    · intro h0
      rw [hbody, if_pos (htot.trans h0)]
    · intro hpos
      rw [hbody, if_neg (by omega)]
      refine ⟨cumulative_scan_price (3 * total_count (sortByGwei (percentile_pool (b0 :: bds'))) / 4)
        (sortByGwei (percentile_pool (b0 :: bds'))) 0, rfl, ?_⟩
      by_cases htarget : 3 * total_count (percentile_pool (b0 :: bds')) / 4 = 0
      · have hpool_ne : percentile_pool (b0 :: bds') ≠ [] := by
          intro hnil
          rw [hnil] at hpos
          simp [total_count] at hpos
        have hsort_ne : sortByGwei (percentile_pool (b0 :: bds')) ≠ [] := by
          intro hnil
          have := (sortByGwei_perm (percentile_pool (b0 :: bds'))).length_eq
          rw [hnil] at this
          exact hpool_ne (List.length_eq_zero.mp this.symm)
        obtain ⟨s0, srest, hs⟩ := List.exists_cons_of_ne_nil hsort_ne
        have hg : cumulative_scan_price
            (3 * total_count (sortByGwei (percentile_pool (b0 :: bds'))) / 4)
            (sortByGwei (percentile_pool (b0 :: bds'))) 0 = s0.gwei := by
          rw [htot, htarget, hs, cumulative_scan_cons, if_pos (by omega)]
        rw [hg]
        refine ⟨⟨s0, ?_, rfl⟩, ?_, ?_⟩
        · exact (sortByGwei_perm _).mem_iff.mp (hs ▸ List.mem_cons_self s0 srest)
        · rw [htarget]
          omega
        · intro h
          omega
      · have hpos' : 0 < 3 * total_count (sortByGwei (percentile_pool (b0 :: bds'))) / 4 := by
          omega
        have hle' : 3 * total_count (sortByGwei (percentile_pool (b0 :: bds'))) / 4 ≤
            total_count (sortByGwei (percentile_pool (b0 :: bds'))) := by
          omega
        obtain ⟨⟨c, hc, hcg⟩, hw, hmin⟩ :=
          cumulative_scan_spec (sortByGwei (percentile_pool (b0 :: bds')))
            (sortByGwei_pairwise _) _ hpos' hle'
        have hwperm := weight_le_perm (sortByGwei_perm (percentile_pool (b0 :: bds')))
        have htarg : 3 * total_count (sortByGwei (percentile_pool (b0 :: bds'))) / 4 =
            3 * total_count (percentile_pool (b0 :: bds')) / 4 := by
          rw [htot]
        refine ⟨⟨c, (sortByGwei_perm _).mem_iff.mp hc, hcg⟩, ?_, ?_⟩
        · rw [← hwperm _, ← htarg]
          exact hw
        · intro _ p hp
          have hlt := hmin p hp
          rw [← hwperm p]
          omega
  · have hr : round_to_9_places 20 = 20 := by
      norm_num [round_to_9_places, round_eq]
    have hbase : get_prediction_percentile
        [[⟨10, 1⟩, ⟨20, 2⟩, ⟨30, 1⟩], [⟨10, 1⟩, ⟨20, 2⟩, ⟨30, 1⟩],
         [⟨10, 1⟩, ⟨20, 2⟩, ⟨30, 1⟩], [⟨10, 1⟩, ⟨20, 2⟩, ⟨30, 1⟩],
         [⟨10, 1⟩, ⟨20, 2⟩, ⟨30, 1⟩]] 100 =
        Except.ok (round_to_9_places 20, Settlement.fast, 101) := by
      rfl
    rw [hbase, hr]

/-- Witness for C5: a single one-bucket distribution — the model succeeds
and the returned gwei satisfies the cumulative-percentile
characterisation. -/
theorem percentile_spec_witness :
    ∃ g : ℚ,
      get_prediction_percentile [[⟨3, 2⟩]] 7 =
        Except.ok (round_to_9_places g, Settlement.fast, 7 + 1) ∧
      (∃ b ∈ percentile_pool [[⟨3, 2⟩]], b.gwei = g) ∧
      3 * total_count (percentile_pool [[⟨3, 2⟩]]) / 4 ≤
        weight_le (percentile_pool [[⟨3, 2⟩]]) g ∧
      (0 < 3 * total_count (percentile_pool [[⟨3, 2⟩]]) / 4 →
        ∀ p : ℚ, p < g →
          weight_le (percentile_pool [[⟨3, 2⟩]]) p <
            3 * total_count (percentile_pool [[⟨3, 2⟩]]) / 4) :=
  ((percentile_spec.2.1 [[⟨3, 2⟩]] 7 (by simp)).2 (by decide))

/-! Claim C6. -/

/-- The `f64::max` embedding dominates its right argument. -/
theorem le_fmax_right (a b : ℚ) : b ≤ fmax a b := by
  unfold fmax
  by_cases h : a ≤ b
  · rw [if_pos h]
  · rw [if_neg h]
    linarith [not_le.mp h]

/-- The `f64::min` embedding is below its right argument. -/
theorem fmin_le_right (a b : ℚ) : fmin a b ≤ b := by
  unfold fmin
  by_cases h : a ≤ b
  · rw [if_pos h]
    exact h
  · rw [if_neg h]

/-- The `f64::min` embedding is monotone in its left argument. -/
theorem fmin_le_fmin_left {a c : ℚ} (h : a ≤ c) (b : ℚ) : fmin a b ≤ fmin c b := by
  unfold fmin
  by_cases h1 : a ≤ b <;> by_cases h2 : c ≤ b
  · rw [if_pos h1, if_pos h2]
    exact h
  · rw [if_pos h1, if_neg h2]
    exact h1
  · rw [if_neg h1, if_pos h2]
    linarith [not_le.mp h1]
  · rw [if_neg h1, if_neg h2]

/-- Rounding to 9 decimal places is monotone. -/
theorem round9_mono {x y : ℚ} (h : x ≤ y) :
    round_to_9_places x ≤ round_to_9_places y := by
  unfold round_to_9_places
  have hr : round (x * 1000000000) ≤ round (y * 1000000000) := by
    rw [round_eq, round_eq]
    exact Int.floor_mono (by linarith)
  have hq : ((round (x * 1000000000) : ℤ) : ℚ) ≤ ((round (y * 1000000000) : ℤ) : ℚ) := by
    exact_mod_cast hr
  linarith

/-- Counterexample for C6: the model does not error when fewer than 3
medians exist (on `[[], [], [{1.0, 1}]]`, a single median, it returns
`1.0`), and on three blocks of median `0.5` it returns `0.75`, strictly
below the claimed lower clamp of `1.0` (the code caps at
`1.5 · max_median = 0.75` after flooring at `1.0`). -/
theorem time_series_counterexample :
    get_prediction_time_series [[], [], [⟨1, 1⟩]] = 1 ∧
    get_prediction_time_series [[⟨1 / 2, 1⟩], [⟨1 / 2, 1⟩], [⟨1 / 2, 1⟩]] = 3 / 4 ∧
    ¬ ((1 : ℚ) ≤ 3 / 4) := by
  refine ⟨?_, ?_, by norm_num⟩
  · norm_num [get_prediction_time_series, ts_pred, ts_medians, ts_blocks, ts_max_median,
      weighted_median, sortByGwei, insertByGwei, cumulative_scan_price, total_count,
      fmax, fmin, List.enum, List.enumFrom, round_to_9_places, round_eq]
  · norm_num [get_prediction_time_series, ts_pred, ts_medians, ts_blocks, ts_max_median,
      weighted_median, sortByGwei, insertByGwei, cumulative_scan_price, total_count,
      fmax, fmin, List.enum, List.enumFrom, round_to_9_places, round_eq]

/-- C6 (amended): with fewer than 3 considered blocks the model falls back
to the moving average instead of erroring; with at least 3 considered
blocks (and at least one non-empty, so the `f64` evaluation is defined) it
returns the OLS prediction floored at 1.0 and then capped at
`1.5 · max_observed_median`, rounded to 9 decimal places — hence the
result is at most the rounded cap and at least the rounded
`min(1.0, 1.5 · max_observed_median)`, but it is not always `≥ 1.0`. -/
theorem time_series_spec :
    (∀ bds : List BlockDistribution, min 20 bds.length < 3 →
      get_prediction_time_series bds = swma_price bds) ∧
    (∀ bds : List BlockDistribution, 3 ≤ min 20 bds.length →
      (ts_blocks bds).any (fun d => !d.isEmpty) = true →
      1 ≤ ts_pred bds ∧
      get_prediction_time_series bds =
        round_to_9_places (fmin (ts_pred bds) (ts_max_median bds * (3 / 2))) ∧
      get_prediction_time_series bds ≤
        round_to_9_places (ts_max_median bds * (3 / 2)) ∧
      round_to_9_places (fmin 1 (ts_max_median bds * (3 / 2))) ≤
        get_prediction_time_series bds) := by
  constructor
  · intro bds h
    unfold get_prediction_time_series
    rw [if_pos h]
  · intro bds h3 _
    have hbody : get_prediction_time_series bds =
        round_to_9_places (fmin (ts_pred bds) (ts_max_median bds * (3 / 2))) := by
      unfold get_prediction_time_series
      rw [if_neg (by omega)]
    have hp : 1 ≤ ts_pred bds := by
      unfold ts_pred
      exact le_fmax_right _ _
    refine ⟨hp, hbody, ?_, ?_⟩
    · rw [hbody]
      exact round9_mono (fmin_le_right _ _)
    · rw [hbody]
      exact round9_mono (fmin_le_fmin_left hp _)

/-- Witness for C6 (amended): three identical blocks of median 2.0. -/
theorem time_series_spec_witness :
    1 ≤ ts_pred [[⟨2, 1⟩], [⟨2, 1⟩], [⟨2, 1⟩]] ∧
    get_prediction_time_series [[⟨2, 1⟩], [⟨2, 1⟩], [⟨2, 1⟩]] =
      round_to_9_places (fmin (ts_pred [[⟨2, 1⟩], [⟨2, 1⟩], [⟨2, 1⟩]])
        (ts_max_median [[⟨2, 1⟩], [⟨2, 1⟩], [⟨2, 1⟩]] * (3 / 2))) ∧
    get_prediction_time_series [[⟨2, 1⟩], [⟨2, 1⟩], [⟨2, 1⟩]] ≤
      round_to_9_places (ts_max_median [[⟨2, 1⟩], [⟨2, 1⟩], [⟨2, 1⟩]] * (3 / 2)) ∧
    round_to_9_places (fmin 1 (ts_max_median [[⟨2, 1⟩], [⟨2, 1⟩], [⟨2, 1⟩]] * (3 / 2))) ≤
      get_prediction_time_series [[⟨2, 1⟩], [⟨2, 1⟩], [⟨2, 1⟩]] :=
  time_series_spec.2 [[⟨2, 1⟩], [⟨2, 1⟩], [⟨2, 1⟩]] (by norm_num) (by decide)

end GasAgent
